import Mathlib

/-!
Verification of the ae-conjure core: a shallow embedding of the Retry Engine
(`src/client/js/ai-client.js`, `AEConjure.RetryEngine`), the Generation Client
(`AEConjure.AIClient`), the Knowledge Index (`AEConjure.Knowledge`) and the
Conversation History Buffer (`buildConversationHistory`), together with
theorems settling the frozen claims about them.

JavaScript values are embedded as follows: strings become `String`
(operated on mostly through `List Char`), optional / possibly-absent object
fields become `Option`, truthiness of a string is emptiness, machine numbers
that may be negative become `Int`, promises become `Except String α`
(`Except.error` = rejected promise, `Except.ok` = resolved promise), and the
external collaborators (HTTP transport, `JSON.parse` at the transport
boundary, the Execution Bridge) become explicit oracle parameters.
-/

namespace AEConjure

/-! ## JavaScript string primitives

`\s` of a JavaScript regex and `String.prototype.trim` both use the JS
whitespace class (space, tab, line feed, carriage return, vertical tab,
form feed; we omit the exotic Unicode space separators, which never occur
in the inputs considered here). -/

/-- Membership in the JavaScript whitespace class `\s`. -/
def jsWs (c : Char) : Bool :=
  c = ' ' || c = '\t' || c = '\n' || c = '\r' || c = '\x0b' || c = '\x0c'

/-- Embedding of `String.prototype.trim`: drop JS whitespace from both ends. -/
def jsTrimList (s : List Char) : List Char :=
  ((s.dropWhile jsWs).reverse.dropWhile jsWs).reverse

/-- Embedding of `String.prototype.trim` on `String`. -/
def jsTrim (s : String) : String :=
  ⟨jsTrimList s.data⟩

/-- Does `needle` occur as a contiguous sublist of `hay`?  Embeds
`hay.indexOf(needle) !== -1`. -/
def listContainsSub (needle : List Char) : List Char → Bool
  | [] => needle.isPrefixOf []
  | c :: rest => needle.isPrefixOf (c :: rest) || listContainsSub needle rest

/-- String-level `hay.indexOf(needle) !== -1`. -/
def strContains (hay needle : String) : Bool :=
  listContainsSub needle.data hay.data

/-- ASCII lowering of one character, the fragment of JS `toLowerCase()`
exercised by the corpus keywords and prompts considered here. -/
def lowerChar (c : Char) : Char :=
  if 'A' ≤ c && c ≤ 'Z' then Char.ofNat (c.toNat + 32) else c

/-- Embedding of `String.prototype.toLowerCase()` (ASCII fragment). -/
def lowerStr (s : String) : String :=
  ⟨s.data.map lowerChar⟩

/-- Embedding of `s.indexOf(p) === 0`: `p` is a prefix of `s`. -/
def strStartsWith (s p : String) : Bool :=
  p.data.isPrefixOf s.data

/-! ## Code extraction (`extractCode`, ai-client.js lines 249–260)

The source matches the regex
`/\x60\x60\x60(?:javascript|jsx|extendscript)?\s*\n?([\s\S]*?)\x60\x60\x60/`
against the response text.  We embed the backtracking search this regex
performs: scan left to right for an opening fence; after it, try the three
tag alternatives in order and then the empty alternative; skip the maximal
whitespace run (`\s*` is greedy, and backtracking it cannot expose an
earlier closing fence because a fence character is not whitespace, so the
net effect of `\s*\n?` is exactly "skip all whitespace"); then take the
shortest (lazy `[\s\S]*?`) capture followed by a closing fence. -/

/-- The fence delimiter, three backticks. -/
def fenceChars : List Char := ['\x60', '\x60', '\x60']

/-- Lazy capture: the shortest prefix of `s` whose remainder starts with a
closing fence, or `none` when no closing fence occurs in `s`. -/
def findCapture : List Char → Option (List Char)
  | [] => none
  | c :: rest =>
    if fenceChars.isPrefixOf (c :: rest) then some []
    else (findCapture rest).map (fun cap => c :: cap)

/-- One tag alternative of the regex: require `tag` literally, skip the
whitespace run, then find the lazy capture. -/
def tryFenceTag (tag : List Char) (s : List Char) : Option (List Char) :=
  if tag.isPrefixOf s then findCapture ((s.drop tag.length).dropWhile jsWs)
  else none

/-- The part of the regex after the opening fence: the alternatives
`javascript`, `jsx`, `extendscript`, then the empty tag, tried in order. -/
def tryFenceTail (s : List Char) : Option (List Char) :=
  (tryFenceTag "javascript".data s).orElse fun _ =>
    (tryFenceTag "jsx".data s).orElse fun _ =>
      (tryFenceTag "extendscript".data s).orElse fun _ =>
        tryFenceTag [] s

/-- Leftmost-match scan: at each position, if an opening fence starts here
and the tail matches, this is the match; otherwise advance one character. -/
def firstFenceCaptureAux : List Char → Option (List Char)
  | [] => none
  | c :: rest =>
    if fenceChars.isPrefixOf (c :: rest) then
      match tryFenceTail ((c :: rest).drop 3) with
      | some cap => some cap
      | none => firstFenceCaptureAux rest
    else firstFenceCaptureAux rest

/-- Capture group 1 of the first regex match in `text`, if any. -/
def firstFenceCapture (text : String) : Option String :=
  (firstFenceCaptureAux text.data).map (fun cap => ⟨cap⟩)

/-- Fallback path of `extractCode`: if the response textually resembles code
(`app.project` or `var ` occurs), the whole trimmed response, else empty. -/
def extractCodeFallback (text : String) : String :=
  if strContains text "app.project" || strContains text "var " then jsTrim text
  else ""

/-- Embedding of `extractCode` (ai-client.js 249–260).  The source tests
`match && match[1]`, so an *empty* capture (falsy in JS) also falls through
to the fallback path. -/
def extractCode (text : String) : String :=
  match firstFenceCapture text with
  | some cap => if cap = "" then extractCodeFallback text else jsTrim cap
  | none => extractCodeFallback text

/-! ## Generation Client (`AEConjure.AIClient`, ai-client.js lines 88–241)

`sendAnthropic` / `sendOpenAI` / `sendGoogle` each perform one `httpPost`
and post-process the reply in a `.then` handler.  We embed the outcome of
the transport round trip plus the provider-envelope decoding that the
handler performs (`JSON.parse`, the `data.error` test, and the extraction
of the reply text from the provider-specific envelope shape) as one oracle
value `ProviderReply`; these steps happen at the JS runtime / network
boundary.  The promise returned by each sender is `Except String GenResult`:
`Except.error` is a rejected promise (the source has *no* `catch` on this
path, so a transport rejection, and a `JSON.parse` exception thrown inside
the `.then` handler, both reject the promise returned to the caller). -/

/-- Outcome of one provider round trip, as seen by the `.then` handler. -/
inductive ProviderReply where
  /-- `httpPost` rejected (network error or HTTP status ≥ 400). -/
  | transportErr (msg : String)
  /-- The response body was not valid JSON: `JSON.parse` threw a
  `SyntaxError` carrying `msg`, which rejects the chained promise. -/
  | malformed (msg : String)
  /-- The parsed envelope had an `error` field; `msg` is
  `data.error.message || JSON.stringify(data.error)`. -/
  | errorEnvelope (msg : String)
  /-- A well-formed envelope whose extracted reply text is `text`
  (an envelope with missing content yields `text = ""` in the source). -/
  | okEnvelope (text : String)
deriving Repr, DecidableEq

/-- Normalized result of a generation call, `{success, code, rawResponse}`
on success or `{success:false, error}` on a provider-reported error
(absent string fields embedded as `""`). -/
structure GenResult where
  success : Bool
  code : String
  rawResponse : String
  error : String
deriving Repr, DecidableEq

/-- Embedding of `sendAnthropic` (ai-client.js 131–163): the `.then`
handler converts an error envelope to a *resolved* `{success:false,error}`,
converts a good envelope to `{success:true, code, rawResponse}`, and lets a
transport rejection or a `JSON.parse` exception reject the promise. -/
def sendAnthropic (reply : ProviderReply) : Except String GenResult :=
  match reply with
  | .transportErr msg => Except.error msg
  | .malformed msg => Except.error msg
  | .errorEnvelope msg => Except.ok { success := false, code := "", rawResponse := "", error := msg }
  | .okEnvelope text =>
    Except.ok { success := true, code := extractCode text, rawResponse := text, error := "" }

/-- Embedding of `sendOpenAI` (ai-client.js 169–200); identical promise
structure, only the envelope shape (absorbed into `ProviderReply`) differs. -/
def sendOpenAI (reply : ProviderReply) : Except String GenResult :=
  match reply with
  | .transportErr msg => Except.error msg
  | .malformed msg => Except.error msg
  | .errorEnvelope msg => Except.ok { success := false, code := "", rawResponse := "", error := msg }
  | .okEnvelope text =>
    Except.ok { success := true, code := extractCode text, rawResponse := text, error := "" }

/-- Embedding of `sendGoogle` (ai-client.js 205–241); identical promise
structure, only the envelope shape differs. -/
def sendGoogle (reply : ProviderReply) : Except String GenResult :=
  match reply with
  | .transportErr msg => Except.error msg
  | .malformed msg => Except.error msg
  | .errorEnvelope msg => Except.ok { success := false, code := "", rawResponse := "", error := msg }
  | .okEnvelope text =>
    Except.ok { success := true, code := extractCode text, rawResponse := text, error := "" }

/-- Embedding of the user-message assembly in `sendPrompt` (ai-client.js
103–114): knowledge, composition context, retry context, then the literal
prompt; each present (non-empty, JS truthiness) section followed by a blank
line. -/
def buildUserMessage (knowledge compContext retryContext prompt : String) : String :=
  (if knowledge = "" then "" else knowledge ++ "\n\n")
    ++ (if compContext = "" then "" else "Current composition context:\n" ++ compContext ++ "\n\n")
    ++ (if retryContext = "" then "" else retryContext ++ "\n\n")
    ++ prompt

/-- Embedding of `sendPrompt` (ai-client.js 88–126).  The transport oracle
`net` maps the assembled user message to the round-trip outcome.  The
`default` branch of the source's `switch` is
`Promise.reject({success:false, error: 'Unknown provider: ' + provider})`;
the Retry Engine's `catch` stringifies a rejection value, so we embed the
rejection value by the text it stringifies to. -/
def sendPrompt (net : String → ProviderReply)
    (knowledge compContext retryContext prompt provider : String) :
    Except String GenResult :=
  if provider = "anthropic" then
    sendAnthropic (net (buildUserMessage knowledge compContext retryContext prompt))
  else if provider = "openai" then
    sendOpenAI (net (buildUserMessage knowledge compContext retryContext prompt))
  else if provider = "google" then
    sendGoogle (net (buildUserMessage knowledge compContext retryContext prompt))
  else Except.error ("Unknown provider: " ++ provider)

/-- Is a promise outcome resolved (as opposed to rejected)? -/
def isResolved : Except String GenResult → Bool
  | Except.ok _ => true
  | Except.error _ => false

/-! ## Execution Bridge (`executeInAE`, ai-client.js lines 904–932)

`executeInAE` wraps `csInterface.evalScript` in a promise that calls
`resolve` in every branch and never calls `reject`.  The host reply is a
string; the JS runtime's `JSON.parse` of it, together with the field reads
the Retry Engine performs on the parsed value (`.success` truthiness,
`.result`, `.error`), is embedded as an oracle
`parse : String → Option ExecOutcome` (`none` = `JSON.parse` threw). -/

/-- What the Retry Engine reads from an execution result object. -/
structure ExecOutcome where
  success : Bool
  result : Option String
  error : Option String
deriving Repr, DecidableEq

/-- The string `EvalScript error.`; CEP's `CSInterface.js` defines the
global `EvalScript_ErrMessage` as this same literal, so the source's
two-way comparison collapses to comparisons with this constant. -/
def evalScriptErrMessage : String := "EvalScript error."

/-- Embedding of `executeInAE` (ai-client.js 904–932): a sentinel reply
resolves to a retryable failure, a JSON-parseable reply resolves to the
parsed object, and any other reply resolves to a success carrying the raw
reply text.  Every branch resolves; the promise never rejects, which the
`Except`-typed result makes checkable. -/
def executeInAE (parse : String → Option ExecOutcome) (result : String) :
    Except String ExecOutcome :=
  if result = "EvalScript error." || result = evalScriptErrMessage then
    Except.ok { success := false, result := none,
                error := some "ExtendScript evaluation error. The host script may not be loaded." }
  else
    match parse result with
    | some parsed => Except.ok parsed
    | none => Except.ok { success := true, result := some result, error := none }

/-- How the Retry Engine consumes the (always-resolved) `executeInAE`
promise: the resolved value.  The rejected branch is unreachable. -/
def resolvedOutcome : Except String ExecOutcome → ExecOutcome
  | Except.ok v => v
  | Except.error _ => { success := false, result := none, error := none }

/-! ## Retry Engine (`AEConjure.RetryEngine.run`, ai-client.js lines 795–972)

The loop is embedded with two oracles: `gen n` is the promise outcome of
the `sendPrompt` call made on attempt `n` (the assembled prompt text —
original prompt or retry context — does not affect control flow, so the
oracle is keyed by attempt number), and `exec n` is the value the
always-resolving `executeInAE` promise delivers on attempt `n`.  The
callbacks `onAttempt` / `onCode` are observation hooks that do not affect
control flow and are omitted. -/

/-- One entry of the attempt audit trail (absent object fields are `none`). -/
structure Attempt where
  attempt : Nat
  code : String
  rawResponse : Option String
  aiError : Option String
  success : Bool
  result : Option String
  error : Option String
deriving Repr, DecidableEq

/-- Terminal outcome of a `run()` invocation. -/
structure RunResult where
  success : Bool
  attempts : List Attempt
  totalAttempts : Nat
  finalCode : Option String
  finalResult : Option String
  finalError : Option String
deriving Repr, DecidableEq

/-- JS `v || null` for a possibly-absent string `v`: the empty string is
falsy and becomes `null`. -/
def jsOrNullStr : Option String → Option String
  | some "" => none
  | v => v

/-- Embedding of `buildFinalResult` (ai-client.js 963–972). -/
def buildFinalResult (attempts : List Attempt) (success : Bool) : RunResult :=
  { success := success
    attempts := attempts
    totalAttempts := attempts.length
    finalCode := if success then attempts.getLast?.map (fun a => a.code) else none
    finalResult := if success then attempts.getLast?.bind (fun a => a.result) else none
    finalError := if success then none else attempts.getLast?.bind (fun a => a.error) }

/-- Embedding of `var maxRetries = options.maxRetries || DEFAULT_MAX_RETRIES`
(ai-client.js 796): an absent option and the falsy value `0` both fall back
to the default `3`; any other integer, including a negative one, is kept. -/
def effectiveMaxRetries : Option Int → Int
  | none => 3
  | some m => if m = 0 then 3 else m

/-- Embedding of `executeAttempt` (ai-client.js 802–894).  `maxRetries` is
passed as the `Nat` image of the effective `Int` value: the only uses are
comparisons `attemptNum < maxRetries` with `attemptNum ≥ 1`, which agree
with the comparison against `Int.toNat` (a non-positive bound makes both
false).  The trailing `.catch` of the source converts a rejection of the
generation promise into a failed terminal attempt. -/
def runLoop (gen : Nat → Except String GenResult) (exec : Nat → ExecOutcome)
    (maxRetries : Nat) (attemptIndex : Nat) (attempts : List Attempt) : RunResult :=
  match gen (attemptIndex + 1) with
  | Except.error err =>
    buildFinalResult
      (attempts ++ [{ attempt := attemptIndex + 1, code := "", rawResponse := none,
                      aiError := none, success := false, result := none, error := some err }])
      false
  | Except.ok aiResult =>
    if aiResult.success = false then
      buildFinalResult
        (attempts ++ [{ attempt := attemptIndex + 1, code := "", rawResponse := none,
                        aiError := some aiResult.error, success := false, result := none,
                        error := some ("AI generation failed: " ++ aiResult.error) }])
        false
    else if aiResult.code = "" then
      if h : attemptIndex + 1 < maxRetries then
        runLoop gen exec maxRetries (attemptIndex + 1) (attempts ++
          [{ attempt := attemptIndex + 1, code := "", rawResponse := some aiResult.rawResponse,
             aiError := none, success := false, result := none,
             error := some "AI response did not contain a code block." }])
      else
        buildFinalResult (attempts ++
          [{ attempt := attemptIndex + 1, code := "", rawResponse := some aiResult.rawResponse,
             aiError := none, success := false, result := none,
             error := some "AI response did not contain a code block." }]) false
    else
      if (exec (attemptIndex + 1)).success then
        buildFinalResult (attempts ++
          [{ attempt := attemptIndex + 1, code := aiResult.code,
             rawResponse := some aiResult.rawResponse, aiError := none,
             success := (exec (attemptIndex + 1)).success,
             result := jsOrNullStr (exec (attemptIndex + 1)).result,
             error := jsOrNullStr (exec (attemptIndex + 1)).error }]) true
      else if h : attemptIndex + 1 < maxRetries then
        runLoop gen exec maxRetries (attemptIndex + 1) (attempts ++
          [{ attempt := attemptIndex + 1, code := aiResult.code,
             rawResponse := some aiResult.rawResponse, aiError := none,
             success := (exec (attemptIndex + 1)).success,
             result := jsOrNullStr (exec (attemptIndex + 1)).result,
             error := jsOrNullStr (exec (attemptIndex + 1)).error }])
      else
        buildFinalResult (attempts ++
          [{ attempt := attemptIndex + 1, code := aiResult.code,
             rawResponse := some aiResult.rawResponse, aiError := none,
             success := (exec (attemptIndex + 1)).success,
             result := jsOrNullStr (exec (attemptIndex + 1)).result,
             error := jsOrNullStr (exec (attemptIndex + 1)).error }]) false
termination_by maxRetries - attemptIndex
decreasing_by all_goals omega

/-- Embedding of `run` (ai-client.js 795–800): resolve the effective retry
bound, then start the loop at attempt index 0 with an empty audit trail. -/
def run (gen : Nat → Except String GenResult) (exec : Nat → ExecOutcome)
    (maxRetriesOpt : Option Int) : RunResult :=
  runLoop gen exec (effectiveMaxRetries maxRetriesOpt).toNat 0 []

/-! ## Knowledge Index (`AEConjure.Knowledge`, src/unnamed/part_002)

The corpus and the inverted index are embedded structurally; the index is
an association list with unique keys in first-insertion order (the JS
object `_index` maps each keyword to the array of chunk references pushed
for it).  String lowering uses `lowerStr`, adequate for the ASCII
keywords and prompts involved. -/

/-- An API atom of the corpus (optional fields are absent-or-present; a JS
empty string is falsy and behaves as absent, which the `Option` embedding
mirrors). -/
structure Atom where
  className : String
  member : Option String
  signature : Option String
  returnType : Option String
  description : Option String
  tags : List String
deriving Repr, DecidableEq

/-- A recipe of the corpus. -/
structure Recipe where
  title : String
  code : String
  tags : List String
deriving Repr, DecidableEq

/-- A gotcha of the corpus. -/
structure Gotcha where
  title : String
  description : String
  tags : List String
deriving Repr, DecidableEq

/-- The three-sequence corpus (an absent sequence is the empty list). -/
structure Corpus where
  atoms : List Atom
  recipes : List Recipe
  gotchas : List Gotcha
deriving Repr, DecidableEq

/-- Chunk kind of an index reference. -/
inductive ChunkType where
  | atom
  | recipe
  | gotcha
deriving Repr, DecidableEq

/-- One inverted-index reference `{type, index}`. -/
structure ChunkRef where
  type : ChunkType
  index : Nat
deriving Repr, DecidableEq

/-- The inverted index: keyword to pushed references, keys unique. -/
abbrev KwIndex := List (String × List ChunkRef)

/-- Push one reference under `kw`, creating the key on first use
(embeds `if (!_index[kw]) _index[kw] = []; _index[kw].push(ref)`). -/
def indexAdd (idx : KwIndex) (kw : String) (ref : ChunkRef) : KwIndex :=
  match idx with
  | [] => [(kw, [ref])]
  | (k, rs) :: rest =>
    if k = kw then (k, rs ++ [ref]) :: rest else (k, rs) :: indexAdd rest kw ref

/-- Push every keyword of one chunk (embeds the inner `keywords.forEach`). -/
def indexAddAll (idx : KwIndex) (kws : List String) (ref : ChunkRef) : KwIndex :=
  kws.foldl (fun acc kw => indexAdd acc kw ref) idx

/-- Split a character list on runs of JS whitespace (the empty fragments a
JS `split(/\s+/)` can produce at the ends have length 0 and are removed by
the length filters that always follow, so they are dropped here). -/
def splitWsAux : List Char → List Char → List (List Char)
  | [], cur => if cur = [] then [] else [cur.reverse]
  | c :: rest, cur =>
    if jsWs c then
      if cur = [] then splitWsAux rest [] else cur.reverse :: splitWsAux rest []
    else splitWsAux rest (c :: cur)

/-- Words of a title that are indexed: lowercase, split on whitespace,
keep words longer than 3 characters. -/
def titleWords (title : String) : List String :=
  ((splitWsAux (lowerStr title).data []).map (fun w => (⟨w⟩ : String))).filter
    (fun w => 3 < w.length)

/-- Keywords pushed for an atom: class name, member (when present), tags,
all lowercased (buildIndex, part_002 lines 176–187). -/
def atomKeywords (a : Atom) : List String :=
  [lowerStr a.className]
    ++ (match a.member with | some m => [lowerStr m] | none => [])
    ++ a.tags.map lowerStr

/-- Keywords pushed for a recipe: tags plus long title words (lines 192–205). -/
def recipeKeywords (r : Recipe) : List String :=
  r.tags.map lowerStr ++ titleWords r.title

/-- Keywords pushed for a gotcha: tags plus long title words (lines 210–222). -/
def gotchaKeywords (g : Gotcha) : List String :=
  g.tags.map lowerStr ++ titleWords g.title

/-- Embedding of `buildIndex` (part_002 lines 170–224): atoms, then
recipes, then gotchas, each enumerated with its stable position. -/
def buildIndex (c : Corpus) : KwIndex :=
  let i1 := c.atoms.enum.foldl
    (fun acc p => indexAddAll acc (atomKeywords p.2) { type := ChunkType.atom, index := p.1 }) []
  let i2 := c.recipes.enum.foldl
    (fun acc p => indexAddAll acc (recipeKeywords p.2) { type := ChunkType.recipe, index := p.1 }) i1
  c.gotchas.enum.foldl
    (fun acc p => indexAddAll acc (gotchaKeywords p.2) { type := ChunkType.gotcha, index := p.1 }) i2

/-- The fixed stop-word set (part_002 lines 235–240). -/
def STOP_WORDS : List String :=
  ["the", "and", "for", "that", "with", "this", "from", "have", "all", "can", "will", "make",
   "like", "just", "want", "need", "get", "set", "use", "add", "new", "each", "how", "its"]

/-- The minimum score threshold (part_002 line 243). -/
def MIN_SCORE : Nat := 3

/-- Map every character outside `[a-z0-9\s]` to a space (the input is
already lowercased when this runs, embedding `.replace(/[^a-z0-9\s]/g, ' ')`). -/
def keepChar (c : Char) : Char :=
  if ('a' ≤ c && c ≤ 'z') || ('0' ≤ c && c ≤ '9') || jsWs c then c else ' '

/-- Deduplicate keeping first occurrences (embeds the `seen` filter,
part_002 lines 260–265). -/
def dedupFirst : List String → List String → List String
  | [], _ => []
  | w :: rest, seen =>
    if w ∈ seen then dedupFirst rest seen else w :: dedupFirst rest (w :: seen)

/-- Embedding of the query tokenization (part_002 lines 254–265):
lowercase, strip non-alphanumerics to spaces, split on whitespace, keep
tokens longer than 2 characters that are not stop words, deduplicate. -/
def tokenize (prompt : String) : List String :=
  let words := (splitWsAux ((lowerStr prompt).data.map keepChar) []).map (fun w => (⟨w⟩ : String))
  dedupFirst (words.filter (fun w => 2 < w.length && !(STOP_WORDS.any (fun s => decide (s = w))))) []

/-- The three mutable score objects, embedded as one total map with
default 0 (only touched indices matter downstream: the threshold filter
keeps scores ≥ 3, and an untouched index scores 0). -/
abbrev ScoreMaps := ChunkType → Nat → Nat

/-- The all-zero score state. -/
def emptyScores : ScoreMaps := fun _ _ => 0

/-- Add `pts` for every reference in `refs` (embeds the
`_index[kw].forEach` bump; a chunk referenced several times under one
keyword is bumped once per reference). -/
def bumpRefs (m : ScoreMaps) (refs : List ChunkRef) (pts : Nat) : ScoreMaps :=
  refs.foldl
    (fun acc r => fun t i => if t = r.type && i = r.index then acc t i + pts else acc t i) m

/-- Look up a keyword in the index. -/
def indexLookup (idx : KwIndex) (w : String) : Option (List ChunkRef) :=
  (idx.find? (fun e => e.1 = w)).map (fun e => e.2)

/-- Exact-match scoring for one token: +3 per reference of the token's own
index entry (part_002 lines 273–279). -/
def applyExact (idx : KwIndex) (m : ScoreMaps) (w : String) : ScoreMaps :=
  match indexLookup idx w with
  | some refs => bumpRefs m refs 3
  | none => m

/-- Partial-match scoring for one token: +1 per reference of every index
entry whose keyword has the token as a strict prefix (part_002
lines 281–290, `kw.indexOf(word) === 0 && kw !== word`). -/
def applyPartial (idx : KwIndex) (m : ScoreMaps) (w : String) : ScoreMaps :=
  idx.foldl
    (fun acc e => if strStartsWith e.1 w && e.1 ≠ w then bumpRefs acc e.2 1 else acc) m

/-- Scoring contribution of one surviving token. -/
def applyWord (idx : KwIndex) (m : ScoreMaps) (w : String) : ScoreMaps :=
  applyPartial idx (applyExact idx m w) w

/-- Final score state after the `words.forEach` loop (part_002 272–291). -/
def finalScores (idx : KwIndex) (ws : List String) : ScoreMaps :=
  ws.foldl (applyWord idx) emptyScores

/-- References in `refs` pointing at chunk `(t, i)` (multiplicity counts). -/
def countRefs (refs : List ChunkRef) (t : ChunkType) (i : Nat) : Nat :=
  (refs.filter (fun r => r.type = t && r.index = i)).length

/-- Declarative per-token score contribution: 3 per exact-match reference
plus 1 per reference of each strictly-extending keyword. -/
def wordContribution (idx : KwIndex) (w : String) (t : ChunkType) (i : Nat) : Nat :=
  (match indexLookup idx w with
   | some refs => 3 * countRefs refs t i
   | none => 0)
    + (idx.map (fun e => if strStartsWith e.1 w && e.1 ≠ w then countRefs e.2 t i else 0)).sum

/-- The order `topN` sorts by: score descending, ties by ascending index.
`Object.keys` of a JS object with integer-like keys enumerates them in
ascending numeric order and the (stable, per ES2019) `sort` with comparator
`scoreMap[b] - scoreMap[a]` therefore leaves ties in ascending index order,
which is exactly the unique order sorted by this total relation. -/
def scoreOrd (f : Nat → Nat) (i j : Nat) : Prop :=
  f j < f i ∨ (f i = f j ∧ i ≤ j)

instance (f : Nat → Nat) (i j : Nat) : Decidable (scoreOrd f i j) := by
  unfold scoreOrd; infer_instance

/-- Embedding of `topN` (part_002 lines 337–344) at a positive minimum
score: the touched-key set of the score object is replaced by all indices
below `len` (an untouched index scores 0 and is removed by the `≥ minScore`
filter exactly as a missing key is). -/
def topN (f : Nat → Nat) (n : Nat) (minScore : Nat) (len : Nat) : List Nat :=
  ((((List.range len).filter (fun i => minScore ≤ f i)).insertionSort (scoreOrd f)).take n)

/-- In-memory state of the knowledge module: the `_ready` flag and the
loaded corpus (`_corpus`, `null` before a load). -/
structure KnowledgeState where
  ready : Bool
  corpus : Option Corpus
deriving Repr, DecidableEq

/-- Render one atom line (part_002 lines 307–313). -/
def formatAtom (a : Atom) : String :=
  a.className
    ++ (match a.member with | some m => "." ++ m | none => "")
    ++ (match a.signature with | some s => s | none => "")
    ++ (match a.returnType with | some r => " -> " ++ r | none => "")
    ++ (match a.description with | some d => " — " ++ d | none => "")

/-- Render the three optional sections and join (part_002 lines 302–331). -/
def formatSections (topAtoms : List Atom) (topRecipes : List Recipe)
    (topGotchas : List Gotcha) : String :=
  let parts :=
    (if topAtoms = [] then [] else "=== API ===" :: topAtoms.map formatAtom)
      ++ (if topRecipes = [] then []
          else "\n=== PATTERNS ===" :: topRecipes.map (fun r => r.title ++ ":\n" ++ r.code))
      ++ (if topGotchas = [] then []
          else "\n=== AVOID ===" :: topGotchas.map (fun g => "- " ++ g.title ++ ": " ++ g.description))
  String.intercalate "\n" parts

/-- Embedding of `retrieve` (part_002 lines 245–332) with explicit per-type
caps (the source's `options.maxAtoms || 5` etc. resolve the defaults before
this point).  The index is recomputed from the corpus it was built from;
`buildIndex` is deterministic, so this equals reading the stored `_index`. -/
def retrieve (st : KnowledgeState) (prompt : String)
    (maxAtoms maxRecipes maxGotchas : Nat) : String :=
  if st.ready = false then ""
  else
    match st.corpus with
    | none => ""
    | some c =>
      let idx := buildIndex c
      let scores := finalScores idx (tokenize prompt)
      let topAtoms :=
        (topN (scores ChunkType.atom) maxAtoms MIN_SCORE c.atoms.length).filterMap c.atoms.get?
      let topRecipes :=
        (topN (scores ChunkType.recipe) maxRecipes MIN_SCORE c.recipes.length).filterMap c.recipes.get?
      let topGotchas :=
        (topN (scores ChunkType.gotcha) maxGotchas MIN_SCORE c.gotchas.length).filterMap c.gotchas.get?
      if topAtoms = [] && topRecipes = [] && topGotchas = [] then ""
      else formatSections topAtoms topRecipes topGotchas

/-- Embedding of the option defaulting `options.maxAtoms || 5` etc.: an
absent option and the falsy `0` both yield the default. -/
def optCap (o : Option Nat) (d : Nat) : Nat :=
  match o with
  | none => d
  | some n => if n = 0 then d else n

/-- `retrieve` with the source's default caps (5 atoms, 2 recipes,
3 gotchas). -/
def retrieveDefaults (st : KnowledgeState) (prompt : String) : String :=
  retrieve st prompt (optCap none 5) (optCap none 2) (optCap none 3)

/-- Structural invariant of the retry loop: starting from an audit trail
`acc` at attempt index `k = acc.length`, at least one further attempt is
appended, `totalAttempts` counts the final trail, the trail never exceeds
`max maxRetries (acc.length + 1)` entries, and the reported `success` flag
is exactly the last attempt's `success` flag. -/
theorem runLoop_spec (gen : Nat → Except String GenResult) (exec : Nat → ExecOutcome)
    (maxR : Nat) (k : Nat) (acc : List Attempt) (hk : k = acc.length) :
    acc.length < (runLoop gen exec maxR k acc).totalAttempts ∧
    (runLoop gen exec maxR k acc).totalAttempts = (runLoop gen exec maxR k acc).attempts.length ∧
    (runLoop gen exec maxR k acc).totalAttempts ≤ max maxR (acc.length + 1) ∧
    (runLoop gen exec maxR k acc).attempts.getLast?.map (fun a => a.success) =
      some (runLoop gen exec maxR k acc).success := by
  induction k, acc using runLoop.induct gen exec maxR with
  | case1 k acc err hg =>
    rw [runLoop, hg]; dsimp only
    simp [buildFinalResult, List.getLast?_concat]
  | case2 k acc g hg hs =>
    rw [runLoop, hg]; dsimp only; rw [if_pos hs]
    simp [buildFinalResult, List.getLast?_concat]
  | case3 k acc g hg hs hc hr ih =>
    rw [runLoop, hg]; dsimp only; rw [if_neg hs, if_pos hc, dif_pos hr]
    have IH := ih (by simp [hk])
    simp only [List.length_append, List.length_cons, List.length_nil] at IH
    refine ⟨by omega, IH.2.1, by omega, IH.2.2.2⟩
  | case4 k acc g hg hs hc hr =>
    rw [runLoop, hg]; dsimp only; rw [if_neg hs, if_pos hc, dif_neg hr]
    simp [buildFinalResult, List.getLast?_concat]
  | case5 k acc g hg hs hc he =>
    rw [runLoop, hg]; dsimp only; rw [if_neg hs, if_neg hc, if_pos he]
    simp [buildFinalResult, List.getLast?_concat, he]
  | case6 k acc g hg hs hc he hr ih =>
    rw [runLoop, hg]; dsimp only; rw [if_neg hs, if_neg hc, if_neg he, dif_pos hr]
    have IH := ih (by simp [hk])
    simp only [List.length_append, List.length_cons, List.length_nil] at IH
    refine ⟨by omega, IH.2.1, by omega, IH.2.2.2⟩
  | case7 k acc g hg hs hc he hr =>
    rw [runLoop, hg]; dsimp only; rw [if_neg hs, if_neg hc, if_neg he, dif_neg hr]
    simp only [Bool.not_eq_true] at he
    simp [buildFinalResult, List.getLast?_concat, he]

/-- When every generation call up to attempt `m` succeeds with non-empty
code, execution fails strictly before attempt `m` and succeeds at `m`, and
`m` is within the retry budget, the loop performs exactly `m - k` further
attempts from index `k` and terminates successfully. -/
theorem runLoop_execSucceedsAt (gen : Nat → Except String GenResult)
    (exec : Nat → ExecOutcome) (maxR m : Nat)
    (hgen : ∀ n, 1 ≤ n → n ≤ m → ∃ g, gen n = Except.ok g ∧ g.success = true ∧ g.code ≠ "")
    (hfail : ∀ n, 1 ≤ n → n < m → (exec n).success = false)
    (hsucc : (exec m).success = true)
    (hm : m ≤ maxR) :
    ∀ (k : Nat) (acc : List Attempt), k < m →
      (runLoop gen exec maxR k acc).totalAttempts = acc.length + (m - k) ∧
      (runLoop gen exec maxR k acc).success = true := by
  intro k acc
  induction k, acc using runLoop.induct gen exec maxR with
  | case1 k acc err hg =>
    intro hkm
    obtain ⟨g, hg', _, _⟩ := hgen (k + 1) (by omega) (by omega)
    rw [hg] at hg'; exact absurd hg' (by simp)
  | case2 k acc g hg hs =>
    intro hkm
    obtain ⟨g', hg', hsucc', _⟩ := hgen (k + 1) (by omega) (by omega)
    rw [hg] at hg'
    cases hg'
    rw [hsucc'] at hs; exact absurd hs (by simp)
  | case3 k acc g hg hs hc hr ih =>
    intro hkm
    obtain ⟨g', hg', _, hcode⟩ := hgen (k + 1) (by omega) (by omega)
    rw [hg] at hg'
    cases hg'
    exact absurd hc hcode
  | case4 k acc g hg hs hc hr =>
    intro hkm
    obtain ⟨g', hg', _, hcode⟩ := hgen (k + 1) (by omega) (by omega)
    rw [hg] at hg'
    cases hg'
    exact absurd hc hcode
  | case5 k acc g hg hs hc he =>
    intro hkm
    have hkm1 : k + 1 = m := by
      by_contra hne
      have : (exec (k + 1)).success = false := hfail (k + 1) (by omega) (by omega)
      rw [this] at he; exact absurd he (by simp)
    rw [runLoop, hg]; dsimp only; rw [if_neg hs, if_neg hc, if_pos he]
    constructor
    · simp [buildFinalResult]; omega
    · simp [buildFinalResult]
  | case6 k acc g hg hs hc he hr ih =>
    intro hkm
    have hkm1 : k + 1 < m := by
      rcases Nat.lt_or_ge (k + 1) m with h | h
      · exact h
      · have : k + 1 = m := by omega
        rw [this] at he; exact absurd hsucc he
    rw [runLoop, hg]; dsimp only; rw [if_neg hs, if_neg hc, if_neg he, dif_pos hr]
    have IH := ih hkm1
    simp only [List.length_append, List.length_cons, List.length_nil] at IH
    exact ⟨by omega, IH.2⟩
  | case7 k acc g hg hs hc he hr =>
    intro hkm
    have hkm1 : k + 1 < m := by
      rcases Nat.lt_or_ge (k + 1) m with h | h
      · exact h
      · have : k + 1 = m := by omega
        rw [this] at he; exact absurd hsucc he
    exact absurd (by omega : k + 1 < maxR) hr

/-! ## Conversation History Buffer (`buildConversationHistory`,
src/README.md main.js listing, lines 806–817) -/

/-- One transcript entry `{role, content}`. -/
structure ChatMsg where
  role : String
  content : String
deriving Repr, DecidableEq

/-- Embedding of `buildConversationHistory`.  The source first runs
`maxTurns = maxTurns || 6` (absent and the falsy `0` both become 6), then
guards `if (maxTurns <= 0) return []` — so that guard can only fire for a
*negative* argument — then filters to user/assistant roles, drops the last
surviving entry (the just-pushed current prompt) when any exist, and
returns the last `maxTurns` entries (`slice(-maxTurns)`). -/
def buildConversationHistory (chatHistory : List ChatMsg) (maxTurnsOpt : Option Int) :
    List ChatMsg :=
  let maxTurns : Int := match maxTurnsOpt with | none => 6 | some m => if m = 0 then 6 else m
  if maxTurns ≤ 0 then []
  else
    let relevant := chatHistory.filter (fun msg => msg.role = "user" || msg.role = "assistant")
    let relevant := if 0 < relevant.length then relevant.dropLast else relevant
    relevant.drop (relevant.length - maxTurns.toNat)

/-! ## Claim theorems: Retry Engine and Execution Bridge -/

/-- Claim C1: with every generation call succeeding with non-empty code, if
the Execution Bridge fails on every attempt before `m` and succeeds at
attempt `m ≤ maxRetries`, the run ends with `totalAttempts = m` and
`success = true`; and if it fails on every attempt with `maxRetries = 2`,
the run ends with `totalAttempts = 2`, `success = false`, and `finalError`
equal to the second attempt's error. -/
theorem c1_execution_retry_and_budget :
    (∀ (gen : Nat → Except String GenResult) (exec : Nat → ExecOutcome) (m mr : Nat),
      (∀ n, 1 ≤ n → n ≤ m → ∃ g, gen n = Except.ok g ∧ g.success = true ∧ g.code ≠ "") →
      (∀ n, 1 ≤ n → n < m → (exec n).success = false) →
      (exec m).success = true → 1 ≤ m → m ≤ mr →
      (run gen exec (some (mr : Int))).totalAttempts = m ∧
      (run gen exec (some (mr : Int))).success = true) ∧
    (∀ (gen : Nat → Except String GenResult) (exec : Nat → ExecOutcome),
      (∀ n, 1 ≤ n → n ≤ 2 → ∃ g, gen n = Except.ok g ∧ g.success = true ∧ g.code ≠ "") →
      (∀ n, (exec n).success = false) →
      (run gen exec (some 2)).totalAttempts = 2 ∧
      (run gen exec (some 2)).success = false ∧
      (run gen exec (some 2)).finalError = jsOrNullStr (exec 2).error) := by
  constructor
  · intro gen exec m mr hgen hfail hsucc hm hmr
    have hmr1 : (effectiveMaxRetries (some (mr : Int))).toNat = mr := by
      simp only [effectiveMaxRetries]
      rw [if_neg (by exact_mod_cast by omega : ¬((mr : Int) = 0))]
      exact Int.toNat_natCast mr
    rw [run, hmr1]
    have := runLoop_execSucceedsAt gen exec mr m hgen hfail hsucc hmr 0 [] (by omega)
    simpa using this
  · intro gen exec hgen hfail
    obtain ⟨g1, hg1, hs1, hc1⟩ := hgen 1 (by omega) (by omega)
    obtain ⟨g2, hg2, hs2, hc2⟩ := hgen 2 (by omega) (by omega)
    have he1 := hfail 1
    have he2 := hfail 2
    have hm2 : (effectiveMaxRetries (some 2)).toNat = 2 := by decide
    rw [run, hm2]
    rw [runLoop, hg1]; dsimp only
    rw [if_neg (by simp [hs1]), if_neg hc1, if_neg (by simp [he1]),
      dif_pos (by omega : 0 + 1 < 2)]
    rw [runLoop]
    have h11 : 0 + 1 + 1 = 2 := by omega
    rw [h11, hg2]; dsimp only
    rw [if_neg (by simp [hs2]), if_neg hc2, if_neg (by simp [he2]),
      dif_neg (by omega : ¬(2 < 2))]
    refine ⟨by simp [buildFinalResult], ?_, ?_⟩ <;>
      simp [buildFinalResult, List.getLast?_concat, he2]

def genStubOk : Nat → Except String GenResult :=
  fun _ => Except.ok { success := true, code := "var x = 1;", rawResponse := "stub", error := "" }

def execStubFailAll : Nat → ExecOutcome :=
  fun n => { success := false, result := none, error := some ("boom " ++ toString n) }

def execStubSucceedAt3 : Nat → ExecOutcome :=
  fun n =>
    if n = 3 then { success := true, result := some "done", error := none }
    else { success := false, result := none, error := some "fail" }

/-- Witness for C1 at concrete stubs: success on attempt 3 of 3, and
budget exhaustion at `maxRetries = 2`. -/
theorem c1_witness :
    (run genStubOk execStubSucceedAt3 (some 3)).totalAttempts = 3 ∧
    (run genStubOk execStubSucceedAt3 (some 3)).success = true ∧
    (run genStubOk execStubFailAll (some 2)).totalAttempts = 2 ∧
    (run genStubOk execStubFailAll (some 2)).success = false ∧
    (run genStubOk execStubFailAll (some 2)).finalError = some "boom 2" := by
  have A := c1_execution_retry_and_budget.1 genStubOk execStubSucceedAt3 3 3
    (fun n _ _ => ⟨_, rfl, rfl, by decide⟩)
    (fun n h1 h2 => by interval_cases n <;> rfl)
    (by rfl) (by omega) (by omega)
  have B := c1_execution_retry_and_budget.2 genStubOk execStubFailAll
    (fun n _ _ => ⟨_, rfl, rfl, by decide⟩)
    (fun n => rfl)
  refine ⟨A.1, A.2, B.1, B.2.1, ?_⟩
  rw [B.2.2]
  rfl

/-- Claim C2: a generation failure (`success:false` from the Generation
Client) on attempt 1 terminates the run immediately with
`totalAttempts = 1` and `success = false`, for every `maxRetries` value;
generation failures are never retried. -/
theorem c2_generation_failure_terminal (gen : Nat → Except String GenResult)
    (exec : Nat → ExecOutcome) (mOpt : Option Int) (g : GenResult)
    (hg : gen 1 = Except.ok g) (hs : g.success = false) :
    (run gen exec mOpt).totalAttempts = 1 ∧ (run gen exec mOpt).success = false := by
  rw [run, runLoop]
  have h01 : 0 + 1 = 1 := by omega
  rw [h01, hg]; dsimp only
  rw [if_pos hs]
  simp [buildFinalResult]

def genStubFail : Nat → Except String GenResult :=
  fun _ => Except.ok { success := false, code := "", rawResponse := "", error := "quota exceeded" }

/-- Witness for C2 at a concrete always-failing generation stub. -/
theorem c2_witness :
    (run genStubFail execStubFailAll (some 5)).totalAttempts = 1 ∧
    (run genStubFail execStubFailAll (some 5)).success = false :=
  c2_generation_failure_terminal genStubFail execStubFailAll (some 5) _ rfl rfl

/-- Claim C3 (amended): for every `run()` invocation, `totalAttempts`
equals the length of the attempt sequence, is at least 1, is at most the
*effective* retry bound (`maxRetries` when positive, the default 3 when the
option is absent or 0, and 1 when negative), and `success` is exactly the
last attempt's success flag. -/
theorem c3_attempts_invariants (gen : Nat → Except String GenResult)
    (exec : Nat → ExecOutcome) (mOpt : Option Int) :
    (run gen exec mOpt).totalAttempts = (run gen exec mOpt).attempts.length ∧
    1 ≤ (run gen exec mOpt).totalAttempts ∧
    (run gen exec mOpt).totalAttempts ≤ max (effectiveMaxRetries mOpt).toNat 1 ∧
    (run gen exec mOpt).attempts.getLast?.map (fun a => a.success) =
      some (run gen exec mOpt).success := by
  have H := runLoop_spec gen exec (effectiveMaxRetries mOpt).toNat 0 [] (by simp)
  simp only [List.length_nil] at H
  rw [run]
  exact ⟨H.2.1, by omega, by have := H.2.2.1; omega, H.2.2.2⟩

def genStubOkB : Nat → Except String GenResult :=
  fun _ => Except.ok { success := true, code := "app.project;", rawResponse := "stubB", error := "" }

def execStubFailAllB : Nat → ExecOutcome :=
  fun _ => { success := false, result := none, error := some "still failing" }

/-- Counterexample to C3 as stated: with `maxRetries = 0` (which the
source coerces to the default 3 via `options.maxRetries || 3`) and a
run that keeps failing, `totalAttempts = 3`, violating the claimed bound
`totalAttempts ≤ maxRetries`. -/
theorem c3_totalAttempts_bound_cex :
    (run genStubOkB execStubFailAllB (some 0)).totalAttempts = 3 ∧
    ¬((run genStubOkB execStubFailAllB (some 0)).totalAttempts ≤ (0 : Int).toNat) := by
  constructor
  · simp [run, runLoop, genStubOkB, execStubFailAllB, effectiveMaxRetries, buildFinalResult]
  · intro h
    rw [show ((0 : Int).toNat) = 0 from rfl] at h
    have : (run genStubOkB execStubFailAllB (some 0)).totalAttempts = 3 := by
      simp [run, runLoop, genStubOkB, execStubFailAllB, effectiveMaxRetries, buildFinalResult]
    omega

/-- Claim C7 (amended): a *negative* `maxRetries` still performs exactly
one generation/execution pass (`totalAttempts = 1` whatever happens), while
`maxRetries = 0` is coerced to the default and behaves identically to
`maxRetries = 3`. -/
theorem c7_amended_nonpositive_budget :
    (∀ (gen : Nat → Except String GenResult) (exec : Nat → ExecOutcome) (m : Int), m < 0 →
      (run gen exec (some m)).totalAttempts = 1) ∧
    (∀ (gen : Nat → Except String GenResult) (exec : Nat → ExecOutcome),
      run gen exec (some 0) = run gen exec (some 3)) := by
  constructor
  · intro gen exec m hm
    have H := runLoop_spec gen exec (effectiveMaxRetries (some m)).toNat 0 [] (by simp)
    simp only [List.length_nil] at H
    have hz : (effectiveMaxRetries (some m)).toNat = 0 := by
      simp only [effectiveMaxRetries]
      rw [if_neg (by omega : ¬(m = 0))]
      omega
    rw [run]
    rw [hz] at H ⊢
    omega
  · intro gen exec
    rfl

/-- Counterexample to C7 as stated: with `maxRetries = 0` and a run that
keeps failing, the engine performs 3 attempts, not exactly one. -/
theorem c7_single_attempt_cex :
    (run genStubOk execStubFailAll (some 0)).totalAttempts = 3 ∧
    (run genStubOk execStubFailAll (some 0)).totalAttempts ≠ 1 := by
  have : (run genStubOk execStubFailAll (some 0)).totalAttempts = 3 := by
    simp [run, runLoop, genStubOk, execStubFailAll, effectiveMaxRetries, buildFinalResult]
  exact ⟨this, by omega⟩

/-- Witness for the amended C7 at a concrete negative budget. -/
theorem c7_witness :
    (run genStubOk execStubFailAll (some (-2))).totalAttempts = 1 :=
  c7_amended_nonpositive_budget.1 genStubOk execStubFailAll (-2) (by omega)

/-- Claim C10: the execution step always resolves and never rejects: the
EvalScript sentinel resolves to a retryable `{success:false}` with an error
message, a parseable reply resolves to the parsed object, an unparseable
reply resolves to `{success:true}` carrying the raw reply text — and such a
malformed bridge reply therefore terminates the retry loop successfully on
its first attempt. -/
theorem c10_executeInAE_always_resolves :
    (∀ (parse : String → Option ExecOutcome) (r : String),
      ∃ v, executeInAE parse r = Except.ok v) ∧
    (∀ (parse : String → Option ExecOutcome),
      executeInAE parse "EvalScript error." =
        Except.ok { success := false, result := none,
                    error := some "ExtendScript evaluation error. The host script may not be loaded." }) ∧
    (∀ (parse : String → Option ExecOutcome) (r : String) (v : ExecOutcome),
      r ≠ "EvalScript error." → parse r = some v → executeInAE parse r = Except.ok v) ∧
    (∀ (parse : String → Option ExecOutcome) (r : String),
      r ≠ "EvalScript error." → parse r = none →
      executeInAE parse r = Except.ok { success := true, result := some r, error := none }) ∧
    (∀ (gen : Nat → Except String GenResult) (g : GenResult)
        (parse : String → Option ExecOutcome) (raw : String) (mOpt : Option Int),
      gen 1 = Except.ok g → g.success = true → g.code ≠ "" →
      raw ≠ "EvalScript error." → parse raw = none →
      (run gen (fun _ => resolvedOutcome (executeInAE parse raw)) mOpt).success = true ∧
      (run gen (fun _ => resolvedOutcome (executeInAE parse raw)) mOpt).totalAttempts = 1) := by
  refine ⟨?_, ?_, ?_, ?_, ?_⟩
  · intro parse r
    rw [executeInAE]
    by_cases h : (r = "EvalScript error." || r = evalScriptErrMessage) = true
    · rw [if_pos h]; exact ⟨_, rfl⟩
    · rw [if_neg h]
      cases hp : parse r
      · exact ⟨_, rfl⟩
      · exact ⟨_, rfl⟩
  · intro parse
    rw [executeInAE, if_pos (by simp)]
  · intro parse r v hr hp
    rw [executeInAE, if_neg (by simp [hr, evalScriptErrMessage]), hp]
  · intro parse r hr hp
    rw [executeInAE, if_neg (by simp [hr, evalScriptErrMessage]), hp]
  · intro gen g parse raw mOpt hg hs hc hr hp
    have hexec : resolvedOutcome (executeInAE parse raw) =
        { success := true, result := some raw, error := none } := by
      rw [executeInAE, if_neg (by simp [hr, evalScriptErrMessage]), hp]
      rfl
    rw [run, runLoop]
    have h01 : 0 + 1 = 1 := by omega
    rw [h01, hg]; dsimp only
    rw [if_neg (by simp [hs]), if_neg hc, if_pos (by rw [hexec])]
    simp [buildFinalResult]

def parseStubNone : String → Option ExecOutcome := fun _ => none

/-- Witness for C10 at a concrete unparseable host reply. -/
theorem c10_witness :
    executeInAE parseStubNone "odd host output" =
      Except.ok { success := true, result := some "odd host output", error := none } ∧
    (run genStubOk (fun _ => resolvedOutcome (executeInAE parseStubNone "odd host output"))
      (some 3)).success = true ∧
    (run genStubOk (fun _ => resolvedOutcome (executeInAE parseStubNone "odd host output"))
      (some 3)).totalAttempts = 1 := by
  have A := c10_executeInAE_always_resolves.2.2.2.1 parseStubNone "odd host output"
    (by decide) rfl
  have B := c10_executeInAE_always_resolves.2.2.2.2 genStubOk _ parseStubNone
    "odd host output" (some 3) rfl rfl (by decide) (by decide) rfl
  exact ⟨A, B.1, B.2⟩

/-! ## Knowledge Index lemmas and claim theorems -/

theorem bumpRefs_apply (refs : List ChunkRef) (pts : Nat) :
    ∀ (m : ScoreMaps) (t : ChunkType) (i : Nat),
      bumpRefs m refs pts t i = m t i + pts * countRefs refs t i := by
  induction refs with
  | nil => intro m t i; simp [bumpRefs, countRefs]
  | cons r rest ih =>
    intro m t i
    rw [bumpRefs, List.foldl_cons]
    have H := ih (fun t i => if t = r.type && i = r.index then m t i + pts else m t i) t i
    rw [bumpRefs] at H
    rw [H]
    rcases Decidable.em (t = r.type ∧ i = r.index) with h | h
    · have hb : (decide (t = r.type) && decide (i = r.index)) = true := by simp [h.1, h.2]
      have hf : (decide (r.type = t) && decide (r.index = i)) = true := by simp [h.1, h.2]
      simp only [countRefs, List.filter_cons, hb, hf, if_true, List.length_cons, Nat.mul_add]
      ring_nf
    · have hb : (decide (t = r.type) && decide (i = r.index)) = false := by
        rcases not_and_or.mp h with h' | h' <;> simp [h']
      have hf : (decide (r.type = t) && decide (r.index = i)) = false := by
        rcases not_and_or.mp h with h' | h'
        · simp [show ¬(r.type = t) from fun hh => h' hh.symm]
        · simp [show ¬(r.index = i) from fun hh => h' hh.symm]
      simp only [countRefs, List.filter_cons, hb, hf, Bool.false_eq_true, if_false]

theorem applyExact_apply (idx : KwIndex) (m : ScoreMaps) (w : String) (t : ChunkType) (i : Nat) :
    applyExact idx m w t i =
      m t i + (match indexLookup idx w with
               | some refs => 3 * countRefs refs t i
               | none => 0) := by
  rw [applyExact]
  cases h : indexLookup idx w with
  | none => simp
  | some refs => simp [bumpRefs_apply]

theorem applyPartial_apply (idx : KwIndex) (w : String) :
    ∀ (m : ScoreMaps) (t : ChunkType) (i : Nat),
      applyPartial idx m w t i =
        m t i + (idx.map (fun e => if strStartsWith e.1 w && e.1 ≠ w then countRefs e.2 t i else 0)).sum := by
  induction idx with
  | nil => intro m t i; simp [applyPartial]
  | cons e rest ih =>
    intro m t i
    rw [applyPartial, List.foldl_cons]
    by_cases h : (strStartsWith e.1 w && e.1 ≠ w) = true
    · rw [if_pos h]
      have H := ih (bumpRefs m e.2 1) t i
      rw [applyPartial] at H
      rw [H, bumpRefs_apply]
      rw [List.map_cons, List.sum_cons, if_pos h]
      ring
    · rw [if_neg h]
      have H := ih m t i
      rw [applyPartial] at H
      rw [H]
      simp only [List.map_cons, List.sum_cons]
      rw [if_neg h]
      omega

theorem applyWord_apply (idx : KwIndex) (m : ScoreMaps) (w : String) (t : ChunkType) (i : Nat) :
    applyWord idx m w t i = m t i + wordContribution idx w t i := by
  rw [applyWord, applyPartial_apply, applyExact_apply, wordContribution]
  ring

theorem finalScores_apply (idx : KwIndex) (ws : List String) (t : ChunkType) (i : Nat) :
    finalScores idx ws t i = (ws.map (fun w => wordContribution idx w t i)).sum := by
  rw [finalScores]
  suffices H : ∀ (m : ScoreMaps), (ws.foldl (applyWord idx) m) t i =
      m t i + (ws.map (fun w => wordContribution idx w t i)).sum by
    rw [H emptyScores]; simp [emptyScores]
  induction ws with
  | nil => intro m; simp
  | cons w rest ih =>
    intro m
    rw [List.foldl_cons, ih, applyWord_apply]
    simp
    ring

instance scoreOrd_total (f : Nat → Nat) : IsTotal Nat (scoreOrd f) := by
  constructor
  intro a b
  unfold scoreOrd
  omega

instance scoreOrd_trans (f : Nat → Nat) : IsTrans Nat (scoreOrd f) := by
  constructor
  intro a b c hab hbc
  unfold scoreOrd at *
  omega

theorem topN_mem_threshold (f : Nat → Nat) (n ms len i : Nat) (h : i ∈ topN f n ms len) :
    ms ≤ f i ∧ i < len := by
  rw [topN] at h
  have h1 : i ∈ ((List.range len).filter (fun j => ms ≤ f j)).insertionSort (scoreOrd f) :=
    List.mem_of_mem_take h
  rw [List.mem_insertionSort] at h1
  have h2 := List.mem_filter.mp h1
  exact ⟨by simpa using h2.2, List.mem_range.mp h2.1⟩

theorem topN_length_le (f : Nat → Nat) (n ms len : Nat) : (topN f n ms len).length ≤ n := by
  rw [topN]
  simp [List.length_take]

theorem topN_sorted (f : Nat → Nat) (n ms len : Nat) :
    List.Sorted (scoreOrd f) (topN f n ms len) := by
  rw [topN]
  exact (List.sorted_insertionSort (scoreOrd f) _).sublist (List.take_sublist _ _)

theorem topN_complete (f : Nat → Nat) (n ms len i : Nat)
    (hn : ((List.range len).filter (fun j => ms ≤ f j)).length ≤ n)
    (hi : i < len) (hf : ms ≤ f i) : i ∈ topN f n ms len := by
  rw [topN]
  have hlen : (((List.range len).filter (fun j => ms ≤ f j)).insertionSort (scoreOrd f)).length ≤ n := by
    rw [List.length_insertionSort]; exact hn
  rw [List.take_of_length_le hlen, List.mem_insertionSort, List.mem_filter]
  exact ⟨List.mem_range.mpr hi, by simpa using hf⟩

theorem topN_empty (f : Nat → Nat) (n ms len : Nat) (h : ∀ i, i < len → f i < ms) :
    topN f n ms len = [] := by
  rw [topN]
  have hf : (List.range len).filter (fun j => ms ≤ f j) = [] := by
    rw [List.filter_eq_nil_iff]
    intro a ha
    have := h a (List.mem_range.mp ha)
    simp
    omega
  rw [hf]
  simp

/-- Claim C9 (amended): `retrieve` returns the empty string when the
ready flag is unset, when no corpus is loaded, and when no chunk of any
type reaches the minimum-score threshold; in particular
`retrieve("xyzxyz")` is empty against every corpus none of whose indexed
keywords has `xyzxyz` as a prefix. -/
theorem c9_amended_retrieve_empty :
    (∀ (st : KnowledgeState) (prompt : String) (a r g : Nat),
      st.ready = false → retrieve st prompt a r g = "") ∧
    (∀ (b : Bool) (prompt : String) (a r g : Nat),
      retrieve { ready := b, corpus := none } prompt a r g = "") ∧
    (∀ (c : Corpus) (prompt : String) (a r g : Nat),
      (∀ i, i < c.atoms.length →
        finalScores (buildIndex c) (tokenize prompt) ChunkType.atom i < MIN_SCORE) →
      (∀ i, i < c.recipes.length →
        finalScores (buildIndex c) (tokenize prompt) ChunkType.recipe i < MIN_SCORE) →
      (∀ i, i < c.gotchas.length →
        finalScores (buildIndex c) (tokenize prompt) ChunkType.gotcha i < MIN_SCORE) →
      retrieve { ready := true, corpus := some c } prompt a r g = "") ∧
    (∀ (c : Corpus) (a r g : Nat),
      (∀ e ∈ buildIndex c, strStartsWith e.1 "xyzxyz" = false) →
      retrieve { ready := true, corpus := some c } "xyzxyz" a r g = "") := by
  have core : ∀ (c : Corpus) (prompt : String) (a r g : Nat),
      (∀ i, i < c.atoms.length →
        finalScores (buildIndex c) (tokenize prompt) ChunkType.atom i < MIN_SCORE) →
      (∀ i, i < c.recipes.length →
        finalScores (buildIndex c) (tokenize prompt) ChunkType.recipe i < MIN_SCORE) →
      (∀ i, i < c.gotchas.length →
        finalScores (buildIndex c) (tokenize prompt) ChunkType.gotcha i < MIN_SCORE) →
      retrieve { ready := true, corpus := some c } prompt a r g = "" := by
    intro c prompt a r g h1 h2 h3
    have e1 := topN_empty (finalScores (buildIndex c) (tokenize prompt) ChunkType.atom)
      a MIN_SCORE c.atoms.length h1
    have e2 := topN_empty (finalScores (buildIndex c) (tokenize prompt) ChunkType.recipe)
      r MIN_SCORE c.recipes.length h2
    have e3 := topN_empty (finalScores (buildIndex c) (tokenize prompt) ChunkType.gotcha)
      g MIN_SCORE c.gotchas.length h3
    simp [retrieve, e1, e2, e3]
  refine ⟨?_, ?_, core, ?_⟩
  · intro st prompt a r g h
    rw [retrieve, if_pos h]
  · intro b prompt a r g
    cases b
    · rw [retrieve, if_pos rfl]
    · rw [retrieve, if_neg (by simp)]
  · intro c a r g hkw
    have htok : tokenize "xyzxyz" = ["xyzxyz"] := by decide
    have hzero : ∀ (t : ChunkType) (i : Nat),
        finalScores (buildIndex c) (tokenize "xyzxyz") t i = 0 := by
      intro t i
      rw [finalScores_apply, htok]
      simp only [List.map_cons, List.map_nil, List.sum_cons, List.sum_nil]
      rw [wordContribution]
      have hlk : indexLookup (buildIndex c) "xyzxyz" = none := by
        rw [indexLookup]
        rw [List.find?_eq_none.mpr]
        · rfl
        · intro e he hcontra
          have heq : e.1 = "xyzxyz" := by simpa using hcontra
          have := hkw e he
          rw [heq] at this
          exact absurd this (by decide)
      rw [hlk]
      have hsum : (List.map (fun e =>
          if strStartsWith e.1 "xyzxyz" && e.1 ≠ "xyzxyz" then countRefs e.2 t i else 0)
          (buildIndex c)).sum = 0 := by
        apply List.sum_eq_zero
        intro x hx
        obtain ⟨e, he, hex⟩ := List.mem_map.mp hx
        rw [← hex]
        rw [if_neg]
        simp [hkw e he]
      rw [hsum]
      rfl
    exact core c "xyzxyz" a r g (fun i _ => by rw [hzero]; decide)
      (fun i _ => by rw [hzero]; decide) (fun i _ => by rw [hzero]; decide)

/-- Claim C5: for each surviving token, an exact keyword match adds 3
points per referenced chunk and each strictly-extending indexed keyword
adds 1 point per referenced chunk, accumulating additively over tokens
(the closed form of the imperative scoring loop); selection per chunk type
filters with the *inclusive* minimum-score bound (`MIN_SCORE ≤ score`, so
a chunk scoring exactly 3 qualifies), sorts by score descending (ties in
ascending index), and takes at most the per-type cap. -/
theorem c5_scoring_and_selection :
    (∀ (idx : KwIndex) (ws : List String) (t : ChunkType) (i : Nat),
      finalScores idx ws t i = (ws.map (fun w => wordContribution idx w t i)).sum) ∧
    (∀ (f : Nat → Nat) (n len i : Nat),
      i ∈ topN f n MIN_SCORE len → MIN_SCORE ≤ f i ∧ i < len) ∧
    (∀ (f : Nat → Nat) (n len : Nat), (topN f n MIN_SCORE len).length ≤ n) ∧
    (∀ (f : Nat → Nat) (n len : Nat), List.Sorted (scoreOrd f) (topN f n MIN_SCORE len)) ∧
    (∀ (f : Nat → Nat) (n len i : Nat),
      ((List.range len).filter (fun j => MIN_SCORE ≤ f j)).length ≤ n →
      i < len → MIN_SCORE ≤ f i → i ∈ topN f n MIN_SCORE len) :=
  ⟨finalScores_apply,
   fun f n len i h => topN_mem_threshold f n MIN_SCORE len i h,
   fun f n len => topN_length_le f n MIN_SCORE len,
   fun f n len => topN_sorted f n MIN_SCORE len,
   fun f n len i h1 h2 h3 => topN_complete f n MIN_SCORE len i h1 h2 h3⟩

def atomOpacity : Atom :=
  { className := "Layer", member := none, signature := none, returnType := some "Property",
    description := some "Layer opacity property", tags := ["opacity"] }

def atomPosition : Atom :=
  { className := "Layer", member := none, signature := none, returnType := some "Property",
    description := some "Layer position property", tags := ["position"] }

def specCorpus : Corpus :=
  { atoms := [atomOpacity, atomPosition], recipes := [], gotchas := [] }

/-- Witness for C5 on the two-atom corpus of the spec: the token
`opacity` gives atom 0 a score of exactly `MIN_SCORE = 3`, which (boundary
inclusive) is selected, while the position atom scores 0 and is dropped. -/
theorem c5_witness :
    finalScores (buildIndex specCorpus) (tokenize "set opacity") ChunkType.atom 0 =
      ((tokenize "set opacity").map
        (fun w => wordContribution (buildIndex specCorpus) w ChunkType.atom 0)).sum ∧
    finalScores (buildIndex specCorpus) (tokenize "set opacity") ChunkType.atom 0 = MIN_SCORE ∧
    0 ∈ topN (finalScores (buildIndex specCorpus) (tokenize "set opacity") ChunkType.atom)
      5 MIN_SCORE 2 ∧
    1 ∉ topN (finalScores (buildIndex specCorpus) (tokenize "set opacity") ChunkType.atom)
      5 MIN_SCORE 2 := by
  refine ⟨c5_scoring_and_selection.1 (buildIndex specCorpus) (tokenize "set opacity")
    ChunkType.atom 0, by decide, ?_, ?_⟩
  · exact c5_scoring_and_selection.2.2.2.2
      (finalScores (buildIndex specCorpus) (tokenize "set opacity") ChunkType.atom)
      5 2 0 (by decide) (by decide) (by decide)
  · intro h
    have := (c5_scoring_and_selection.2.1
      (finalScores (buildIndex specCorpus) (tokenize "set opacity") ChunkType.atom)
      5 2 1 h).1
    exact absurd this (by decide)

def atomXyz : Atom :=
  { className := "Weird", member := none, signature := none, returnType := none,
    description := some "a strangely tagged entry", tags := ["xyzxyz"] }

def xyzCorpus : Corpus :=
  { atoms := [atomOpacity, atomXyz], recipes := [], gotchas := [] }

/-- Counterexample to C9 as stated: a non-trivial corpus that happens to
index the keyword `xyzxyz` makes `retrieve("xyzxyz")` non-empty. -/
theorem c9_nontrivial_corpus_cex :
    retrieve { ready := true, corpus := some xyzCorpus } "xyzxyz" 5 2 3 ≠ "" := by decide

/-! ## Claim theorems: Generation Client, History Buffer, code extraction -/

/-- Witness for the amended C9: an unready state, a corpus-less state,
and the gibberish query against the two-atom corpus all yield the empty
string. -/
theorem c9_witness :
    retrieve { ready := false, corpus := some specCorpus } "set opacity" 5 2 3 = "" ∧
    retrieve { ready := true, corpus := none } "set opacity" 5 2 3 = "" ∧
    retrieve { ready := true, corpus := some specCorpus } "xyzxyz" 5 2 3 = "" := by
  refine ⟨c9_amended_retrieve_empty.1 _ "set opacity" 5 2 3 rfl,
          c9_amended_retrieve_empty.2.1 true "set opacity" 5 2 3, ?_⟩
  exact c9_amended_retrieve_empty.2.2.2 specCorpus 5 2 3 (by decide)

/-- Claim C4 (amended): a provider *error envelope* is converted at the
Generation Client boundary to a resolved `{success:false, error}`, and a
well-formed envelope to a resolved success; but a transport failure and an
unparseable response body propagate out of `sendPrompt` as promise
*rejections*, as does the unknown-provider rejection (the Retry Engine's
`catch` is what converts these into a failed attempt). -/
theorem c4_amended_error_surfacing :
    (∀ (net : String → ProviderReply) (k cc rc p e : String),
      net (buildUserMessage k cc rc p) = ProviderReply.errorEnvelope e →
      sendPrompt net k cc rc p "anthropic" =
        Except.ok { success := false, code := "", rawResponse := "", error := e }) ∧
    (∀ (net : String → ProviderReply) (k cc rc p text : String),
      net (buildUserMessage k cc rc p) = ProviderReply.okEnvelope text →
      sendPrompt net k cc rc p "anthropic" =
        Except.ok { success := true, code := extractCode text, rawResponse := text, error := "" }) ∧
    (∀ (net : String → ProviderReply) (k cc rc p e : String),
      net (buildUserMessage k cc rc p) = ProviderReply.transportErr e →
      sendPrompt net k cc rc p "anthropic" = Except.error e) ∧
    (∀ (net : String → ProviderReply) (k cc rc p e : String),
      net (buildUserMessage k cc rc p) = ProviderReply.malformed e →
      sendPrompt net k cc rc p "anthropic" = Except.error e) ∧
    (∀ (net : String → ProviderReply) (k cc rc p prov : String),
      prov ≠ "anthropic" → prov ≠ "openai" → prov ≠ "google" →
      sendPrompt net k cc rc p prov = Except.error ("Unknown provider: " ++ prov)) := by
  refine ⟨?_, ?_, ?_, ?_, ?_⟩
  · intro net k cc rc p e h
    rw [sendPrompt, if_pos rfl, h]
    rfl
  · intro net k cc rc p text h
    rw [sendPrompt, if_pos rfl, h]
    rfl
  · intro net k cc rc p e h
    rw [sendPrompt, if_pos rfl, h]
    rfl
  · intro net k cc rc p e h
    rw [sendPrompt, if_pos rfl, h]
    rfl
  · intro net k cc rc p prov h1 h2 h3
    rw [sendPrompt, if_neg h1, if_neg h2, if_neg h3]

/-- Counterexample to C4 as stated: a transport failure makes the
`sendPrompt` promise *reject* rather than resolve to `{success:false}`,
because the generation path has no `catch`. -/
theorem c4_rejection_cex :
    sendPrompt (fun _ => ProviderReply.transportErr "Network error") "" "" "" "set opacity"
      "anthropic" = Except.error "Network error" ∧
    isResolved (sendPrompt (fun _ => ProviderReply.transportErr "Network error") "" "" ""
      "set opacity" "anthropic") = false := by
  exact ⟨rfl, rfl⟩

/-- Witness for the amended C4 at concrete reply stubs. -/
theorem c4_witness :
    sendPrompt (fun _ => ProviderReply.errorEnvelope "overloaded") "" "" "" "fade the logo"
      "anthropic" =
      Except.ok { success := false, code := "", rawResponse := "", error := "overloaded" } ∧
    sendPrompt (fun _ => ProviderReply.okEnvelope "no code") "" "" "" "fade the logo"
      "badprov" = Except.error "Unknown provider: badprov" := by
  refine ⟨c4_amended_error_surfacing.1 _ "" "" "" "fade the logo" "overloaded" rfl, ?_⟩
  exact c4_amended_error_surfacing.2.2.2.2 _ "" "" "" "fade the logo" "badprov"
    (by decide) (by decide) (by decide)

/-- The transcript of the C6 scenario: `c` is the just-submitted prompt. -/
def exampleTranscript : List ChatMsg :=
  [{ role := "user", content := "a" }, { role := "assistant", content := "b" },
   { role := "user", content := "c" }]

/-- Claim C6, evaluated at the failing input: `maxTurns = 0` is coerced
to the default 6 by `maxTurns || 6` *before* the `maxTurns <= 0` guard, so
the guard (the code's own statement of the claimed behavior) is
unreachable for 0 and the history is returned instead of the claimed empty
slice; the remaining conjuncts of the claim (role filtering, exclusion of
the in-flight prompt, `buildContext(6)` on the example, negative
`maxTurns`) hold. -/
theorem c6_maxTurnsZero_bug :
    buildConversationHistory exampleTranscript (some 0) =
      [{ role := "user", content := "a" }, { role := "assistant", content := "b" }] ∧
    buildConversationHistory exampleTranscript (some 0) ≠ [] ∧
    buildConversationHistory exampleTranscript (some 6) =
      [{ role := "user", content := "a" }, { role := "assistant", content := "b" }] ∧
    buildConversationHistory exampleTranscript (some (-1)) = [] ∧
    buildConversationHistory
      (exampleTranscript ++ [{ role := "system", content := "diag" }]) (some 6) =
      [{ role := "user", content := "a" }, { role := "assistant", content := "b" }] := by
  refine ⟨by decide, by decide, by decide, by decide, by decide⟩

/-- Counterexample to C8 as stated: this text starts with a fenced block
whose interior (the regex capture) is empty; the claim demands the trimmed
interior `""`, but the source's `match && match[1]` test treats the empty
capture as falsy and falls through to the declaration-idiom fallback,
returning the whole text. -/
theorem c8_empty_capture_cex :
    firstFenceCapture "\x60\x60\x60\x60\x60\x60\nvar x = 1;" = some "" ∧
    extractCode "\x60\x60\x60\x60\x60\x60\nvar x = 1;" = "\x60\x60\x60\x60\x60\x60\nvar x = 1;" ∧
    jsTrim "" = "" ∧
    extractCode "\x60\x60\x60\x60\x60\x60\nvar x = 1;" ≠ "" := by
  refine ⟨by decide, by decide, by decide, by decide⟩

/-- Claim C8 (amended): `extractCode` returns the trimmed interior of
the first fenced block when that captured interior is non-empty; when
there is no fenced block *or the captured interior is empty*, it returns
the full trimmed text if a declaration idiom (`app.project` or `var `)
occurs, and the empty string otherwise; on a text with exactly one fenced
`javascript` block containing `var x = 1;` it returns `"var x = 1;"`. -/
theorem c8_amended_extractCode :
    (∀ (t cap : String), firstFenceCapture t = some cap → cap ≠ "" →
      extractCode t = jsTrim cap) ∧
    (∀ (t : String), firstFenceCapture t = none →
      extractCode t =
        (if strContains t "app.project" || strContains t "var " then jsTrim t else "")) ∧
    (∀ (t : String), firstFenceCapture t = some "" →
      extractCode t =
        (if strContains t "app.project" || strContains t "var " then jsTrim t else "")) ∧
    extractCode "Here you go:\n\x60\x60\x60javascript\nvar x = 1;\n\x60\x60\x60" = "var x = 1;" := by
  refine ⟨?_, ?_, ?_, by decide⟩
  · intro t cap h hne
    rw [extractCode, h]
    dsimp only
    rw [if_neg hne]
  · intro t h
    rw [extractCode, h]
    rfl
  · intro t h
    rw [extractCode, h]
    dsimp only
    rw [if_pos rfl]
    rfl

/-- Witness for the amended C8: a tagged fence with padded interior
trims to the bare statement, and idiom-free prose yields the empty
string. -/
theorem c8_witness :
    extractCode "Intro\n\x60\x60\x60jsx\n  var y = 2;  \n\x60\x60\x60 outro" = "var y = 2;" ∧
    extractCode "just words" = "" := by
  have h1 : firstFenceCapture "Intro\n\x60\x60\x60jsx\n  var y = 2;  \n\x60\x60\x60 outro" =
      some "var y = 2;  \n" := by decide
  have A := c8_amended_extractCode.1 "Intro\n\x60\x60\x60jsx\n  var y = 2;  \n\x60\x60\x60 outro"
    "var y = 2;  \n" h1 (by decide)
  have B := c8_amended_extractCode.2.1 "just words" (by decide)
  refine ⟨?_, ?_⟩
  · rw [A]; decide
  · rw [B]; decide

end AEConjure
